import Mathlib

/-!
Verification development for the manuclaw agent gateway.

The definitions below are a shallow embedding of the repository's Python
sources:

* `src/ai-loop-orch/index.py` — the three tool adapters,
* `src/gateway/index.py` — `run_pipeline`, the orchestration core,
* `src/tooling-detection/registry.py` — `ToolRegistry`,
* `src/memory/index.py` — `MemoryModule.get_memories`,
* `src/manuclaw.py` — the TUI client's phase decoder.

Conventions used throughout:

* A Python value that is either a `str` or `None` is `Option String`
  (`PyStr`); a missing dictionary key is the outer `none` of
  `Option PyStr`.
* Network calls (the plan-generation LLM call, the YouTube transcript
  API, the summarizer LLM call, the sqlite `INSERT`) are oracles passed
  in through a `Config` record: `Except.error e` models a raised Python
  exception whose `str` is `e`, `Except.ok` models a normal return.
* A raised exception that escapes `run_pipeline` itself is the
  `Except.error` result of the embedded `run_pipeline`; the payload
  records the exception text together with the progress events and
  audit entries already produced before the crash (those side effects
  have already happened when the exception propagates).
* The WebSocket `send` calls are collected in order into a list of
  strings; the embedding assumes the transport itself does not fail
  (transport failure is out of scope of the claims treated here), and
  likewise that `MemoryModule(user_id=...)` construction succeeds.
-/

/-- A Python value that is either a `str` or `None`. -/
abbrev PyStr := Option String

/-- How an f-string renders a `str`-or-`None` value (`None` prints as `"None"`). -/
def pyShow : PyStr → String
  | none => "None"
  | some s => s

/-- Python truthiness of a `str`-or-`None` value: `None` and `""` are falsy. -/
def truthy : PyStr → Bool
  | none => false
  | some s => s ≠ ""

/-- The `str` of a Python `KeyError` on key `k`, i.e. the repr `'k'`. -/
def keyErr (k : String) : String := "'" ++ k ++ "'"

/-- First-match lookup in an association list, as Python `dict.get`. -/
def alistGet {β : Type} : List (String × β) → String → Option β
  | [], _ => none
  | (k, v) :: t, key => if k = key then some v else alistGet t key

/-! ### Characters and whitespace (Python `str` helpers) -/

/-- Membership in the regex character class `[A-Za-z0-9_-]`. -/
def ytIdChar (c : Char) : Bool :=
  (('A' ≤ c && c ≤ 'Z') || ('a' ≤ c && c ≤ 'z') || ('0' ≤ c && c ≤ '9')
    || c = '_' || c = '-')

/-- ASCII whitespace as recognised by Python's `str.strip` / `str.split`. -/
def pyWS (c : Char) : Bool :=
  c = ' ' || c = '\t' || c = '\n' || c = '\r' || c = '\x0b' || c = '\x0c'

/-- Python `str.strip()`: drop whitespace from both ends. -/
def pyStrip (s : String) : String :=
  ⟨((s.data.dropWhile pyWS).reverse.dropWhile pyWS).reverse⟩

/-- Word counter for Python `len(s.split())`: counts maximal nonspace runs.
The Boolean argument records whether the previous character was inside a word. -/
def wordCountAux : List Char → Bool → Nat
  | [], _ => 0
  | c :: rest, inWord =>
    if pyWS c then wordCountAux rest false
    else (if inWord then 0 else 1) + wordCountAux rest true

/-- `len(s.split())` in Python: the number of whitespace-separated words. -/
def pySplitLen (s : String) : Nat := wordCountAux s.data false

/-! ### The regex searches of `youtube_link_detection_tool`

`re.search(r"v=([A-Za-z0-9_-]{11})", s)` tries, at each position from the
left, to match the literal pattern followed by exactly 11 characters of the
class, and returns the 11 captured characters of the leftmost match. -/

/-- Strip a literal character pattern off the front of a character list. -/
def dropPat : List Char → List Char → Option (List Char)
  | [], cs => some cs
  | _ :: _, [] => none
  | p :: ps, c :: cs => if c = p then dropPat ps cs else none

/-- Take exactly 11 characters of the class `[A-Za-z0-9_-]`, if available. -/
def take11 (cs : List Char) : Option (List Char) :=
  let t := cs.take 11
  if t.length = 11 && t.all ytIdChar then some t else none

/-- Leftmost match of `pat([A-Za-z0-9_-]{11})`, returning the captured group. -/
def searchPat (pat : List Char) : List Char → Option String
  | [] => none
  | c :: t =>
    match dropPat pat (c :: t) with
    | some rest =>
      match take11 rest with
      | some id => some ⟨id⟩
      | none => searchPat pat t
    | none => searchPat pat t

/-! ### Tool adapters (`src/ai-loop-orch/index.py`) -/

/-- Result dictionary of `youtube_link_detection_tool`. -/
structure LinkResult where
  video_id : PyStr
  error : PyStr
  deriving Repr, DecidableEq

/-- Result dictionary of `youtube_transcript_fetch_tool`. -/
structure FetchResult where
  transcript_text : PyStr
  error : PyStr
  deriving Repr, DecidableEq

/-- Result dictionary of `transcript_summarizer_tool`. -/
structure SummResult where
  summary : PyStr
  error : PyStr
  deriving Repr, DecidableEq

/-- `youtube_link_detection_tool` of `src/ai-loop-orch/index.py`: extract a
YouTube video id via `v=`-URL, `youtu.be/`-URL, or bare 11-character id. -/
def youtube_link_detection_tool (raw_input : String) : LinkResult :=
  match searchPat ['v', '='] raw_input.data with
  | some v => { video_id := some v, error := none }
  | none =>
    match searchPat "youtu.be/".data raw_input.data with
    | some v => { video_id := some v, error := none }
    | none =>
      let s := pyStrip raw_input
      if s.data.length = 11 && s.data.all ytIdChar then
        { video_id := some s, error := none }
      else
        { video_id := none, error := some "No valid YouTube video ID found in input." }

/-- The language-fallback deduplication of `youtube_transcript_fetch_tool`
(the `seen` list comprehension): keep the first occurrence of each entry. -/
def dedupAux (seen : List String) : List String → List String
  | [] => []
  | x :: xs => if seen.contains x then dedupAux seen xs else x :: dedupAux (seen ++ [x]) xs

/-- `youtube_transcript_fetch_tool` of `src/ai-loop-orch/index.py`. The
external `YouTubeTranscriptApi().fetch` call is the oracle `fetchApi`, given
the video id and the deduplicated language list: `ok` returns the segment
texts, `error` is a raised exception (caught by the adapter's `try`). The
video-id argument is duck-typed in Python, hence the type parameter. -/
def youtube_transcript_fetch_tool {α : Type}
    (fetchApi : α → List String → Except String (List String))
    (video_id : α) (language_preference : String := "en") : FetchResult :=
  let langs := dedupAux [] [language_preference, "en", "en-US", "a.en", "fr", "fr-FR", "a.fr"]
  match fetchApi video_id langs with
  | .ok segs => { transcript_text := some (String.intercalate " " segs), error := none }
  | .error e => { transcript_text := none, error := some e }

/-- `transcript_summarizer_tool` of `src/ai-loop-orch/index.py`. `hasKey`
models the truthiness of the module-level `OPENROUTER_KEY`; `summApi` models
the OpenRouter POST + `raise_for_status` + content extraction, applied to the
first 12000 characters of the transcript (`transcript_text[:12000]`); its
`error` case is a raised exception, which this adapter does not catch. A
`None` transcript raises a `TypeError` when sliced. -/
def transcript_summarizer_tool (hasKey : Bool)
    (summApi : String → Except String String)
    (transcript_text : PyStr) : Except String SummResult :=
  if !hasKey then
    .ok { summary := none, error := some "OPENROUTER_KEY not set in environment." }
  else
    match transcript_text with
    | none => .error "'NoneType' object is not subscriptable"
    | some t =>
      match summApi (t.take 12000) with
      | .error e => .error e
      | .ok content => .ok { summary := some content, error := none }

/-! ### JSON serialization (`json.dumps` with its defaults)

`run_pipeline` stores `json.dumps(result)` in each audit entry. The result
dictionaries only contain strings and `None`, so the embedding covers JSON
objects with string-or-null values. `json.dumps` defaults: separators
`", "` and `": "`, and `ensure_ascii=True` (non-ASCII characters become
`\uXXXX` escapes, astral characters become surrogate pairs). -/

/-- A JSON value appearing in a step-result dictionary: a string or `null`. -/
inductive JVal where
  | null
  | str (s : String)
  deriving Repr, DecidableEq

/-- A step-result dictionary, in insertion order. -/
abbrev ResJson := List (String × JVal)

/-- Lowercase hexadecimal digit. -/
def hexDigit (n : Nat) : Char :=
  if n < 10 then Char.ofNat (48 + n) else Char.ofNat (87 + n)

/-- Four-digit lowercase hexadecimal rendering, as in a `\uXXXX` escape. -/
def hex4 (n : Nat) : String :=
  ⟨[hexDigit (n / 4096 % 16), hexDigit (n / 256 % 16), hexDigit (n / 16 % 16), hexDigit (n % 16)]⟩

/-- How `json.dumps` escapes one character of a string. -/
def jsonEscChar (c : Char) : String :=
  if c = '"' then "\\\""
  else if c = '\\' then "\\\\"
  else if c = '\n' then "\\n"
  else if c = '\t' then "\\t"
  else if c = '\r' then "\\r"
  else if c = '\x08' then "\\b"
  else if c = '\x0c' then "\\f"
  else if c.toNat < 32 then "\\u" ++ hex4 c.toNat
  else if c.toNat < 127 then ⟨[c]⟩
  else if c.toNat ≤ 0xFFFF then "\\u" ++ hex4 c.toNat
  else
    let n := c.toNat - 0x10000
    "\\u" ++ hex4 (0xD800 + n / 1024) ++ "\\u" ++ hex4 (0xDC00 + n % 1024)

/-- `json.dumps` escaping of a whole string (without the quotes). -/
def jsonEscape (s : String) : String := String.join (s.data.map jsonEscChar)

/-- Rendering of one JSON value. -/
def renderJVal : JVal → String
  | .null => "null"
  | .str s => "\"" ++ jsonEscape s ++ "\""

/-- `json.dumps` of a step-result dictionary. -/
def jsonDumps (m : ResJson) : String :=
  "\x7b" ++ String.intercalate ", "
    (m.map fun kv => "\"" ++ jsonEscape kv.1 ++ "\": " ++ renderJVal kv.2) ++ "\x7d"

/-! ### The orchestrator's data model (`src/gateway/index.py`) -/

/-- The shared context of one orchestration run: the Python dictionary
`context`, in insertion order, with `str`-or-`None` values. -/
abbrev Ctx := List (String × PyStr)

/-- `context[k]` / `context.get(k)`: `none` means the key is absent
(a subscript would raise `KeyError`). -/
def ctxGet (ctx : Ctx) (key : String) : Option PyStr := alistGet ctx key

/-- `context[k] = v`: update the first binding of `k`, else append. -/
def ctxSet : Ctx → String → PyStr → Ctx
  | [], k, v => [(k, v)]
  | (k', v') :: t, k, v => if k' = k then (k', v) :: t else (k', v') :: ctxSet t k v

/-- `context = {"raw_input": message}`, seeded before the first step. -/
def initCtx (message : String) : Ctx := [("raw_input", some message)]

/-- One entry of a plan's `execution_plan` list, as read by `run_pipeline`:
only the keys `step`, `subtask_name` and `tool_to_use` are ever accessed
(`description` and `reasoning` are never read); `none` models an absent key.
The sequence index is modelled as the integer the planner is asked for. -/
structure Step where
  step : Option Nat
  subtask_name : Option String
  tool_to_use : Option String
  deriving Repr, DecidableEq

/-- One row handed to `MemoryModule.add_memory` (a `MemoryData`). -/
structure AuditEntry where
  chat_id : Nat
  user_id : Nat
  prompt : String
  tool : String
  response : String
  response_code : Nat
  timestamp : Nat
  deriving Repr, DecidableEq

/-- The audit entry `run_pipeline` builds for one executed step
(`CHAT_ID = 1`, `USER_ID = 1`, `timestamp = int(time.time())`). -/
def mkEntry (message tool : String) (res : ResJson) (code now : Nat) : AuditEntry :=
  { chat_id := 1, user_id := 1, prompt := message, tool := tool,
    response := jsonDumps res, response_code := code, timestamp := now }

/-- The external world of one `run_pipeline` call.

* `planResult` — outcome of the `try` block around `TaskBreaker(...)` and
  `breaker.break_task(message)` followed by `plan.get("execution_plan", [])`:
  `error e` is a raised exception with `str(e) = e`, `ok steps` the resulting
  step list.
* `fetchApi` — the `YouTubeTranscriptApi().fetch` oracle (see
  `youtube_transcript_fetch_tool`); its argument is the `context["video_id"]`
  value, which can be `None`.
* `hasKey`, `summApi` — see `transcript_summarizer_tool`.
* `auditApi` — the sqlite `INSERT` behind `memory.add_memory`: `error e`
  is a raised exception.
* `now` — the value of `int(time.time())` during the run. -/
structure Config where
  planResult : Except String (List Step)
  fetchApi : PyStr → List String → Except String (List String)
  hasKey : Bool
  summApi : String → Except String String
  auditApi : AuditEntry → Except String Unit
  now : Nat

/-- Events and audit rows produced by a completed (non-crashing) run. -/
structure Output where
  events : List String
  audits : List AuditEntry
  deriving Repr, DecidableEq

/-- An exception escaping `run_pipeline`: its text, plus the events already
sent and the audit rows already written when it propagated. -/
structure Crash where
  exn : String
  events : List String
  audits : List AuditEntry
  deriving Repr, DecidableEq

/-- The progress event announcing one step: `f"🔧 Step {step['step']}: {name}"`. -/
def stepHeader (n : Nat) (name : String) : String :=
  "🔧 Step " ++ toString n ++ ": " ++ name

/-- The two events of the planning phase: the announcement and the
`f"   Found {len(steps)} step(s) to execute."` report. -/
def planEvs (n : Nat) : List String :=
  ["📋 Breaking task into subtasks...",
   "   Found " ++ toString n ++ " step(s) to execute."]

/-- Outcome of the dispatch `if tool == ... / elif ... / else` together with
the surrounding `try/except` of one step (events listed exclude the step
header, which is emitted before the `try`). -/
inductive ToolExec where
  | skip (warn : String)
  | stepOk (events : List String) (ctx : Ctx) (res : ResJson)
  | stepFail (events : List String) (err : String)
  deriving Repr

/-- The `f"   ❌ Failed: {e}"` event sent by the `except` clause. -/
def failEv (e : String) : List String := ["   ❌ Failed: " ++ e]

/-- The body of the per-step `try/except` of `run_pipeline` (lines 71–102):
dispatch on the tool identifier, invoke the adapter, check the result's
`error` field for truthiness, update the shared context, emit progress
events; any exception inside the `try` becomes `stepFail` with status 500.
A step that fails never publishes a context (the run stops right after the
audit write, so a context update made before the failing statement — possible
only in the `transcript fetched` branch — is never observed). -/
def execTool (cfg : Config) (ctx : Ctx) (tool : String) : ToolExec :=
  if tool = "youtube_link_detection_tool" then
    match ctxGet ctx "raw_input" with
    | none => .stepFail (failEv (keyErr "raw_input")) (keyErr "raw_input")
    | some none =>
      -- re.search on None raises TypeError
      .stepFail (failEv "expected string or bytes-like object")
        "expected string or bytes-like object"
    | some (some raw) =>
      let r := youtube_link_detection_tool raw
      if truthy r.error then
        let e := pyShow r.error
        .stepFail (failEv e) e
      else
        .stepOk ["   ✓ Video ID: " ++ pyShow r.video_id]
          (ctxSet ctx "video_id" r.video_id)
          [("video_id", jval r.video_id), ("error", jval r.error)]
  else if tool = "youtube_transcript_fetch_tool" then
    match ctxGet ctx "video_id" with
    | none => .stepFail (failEv (keyErr "video_id")) (keyErr "video_id")
    | some vid =>
      let r := youtube_transcript_fetch_tool cfg.fetchApi vid
      if truthy r.error then
        let e := pyShow r.error
        .stepFail (failEv e) e
      else
        match r.transcript_text with
        | none =>
          -- result["transcript_text"].split() on None raises AttributeError
          .stepFail (failEv "'NoneType' object has no attribute 'split'")
            "'NoneType' object has no attribute 'split'"
        | some text =>
          .stepOk ["   ✓ Transcript fetched (" ++ toString (pySplitLen text) ++ " words)"]
            (ctxSet ctx "transcript_text" (some text))
            [("transcript_text", .str text), ("error", jval r.error)]
  else if tool = "transcript_summarizer_tool" then
    let waitEv := "   ⏳ Asking Kimi K2.5 to summarize..."
    match ctxGet ctx "transcript_text" with
    | none => .stepFail (waitEv :: failEv (keyErr "transcript_text")) (keyErr "transcript_text")
    | some t =>
      match transcript_summarizer_tool cfg.hasKey cfg.summApi t with
      | .error e => .stepFail (waitEv :: failEv e) e
      | .ok r =>
        if truthy r.error then
          let e := pyShow r.error
          .stepFail (waitEv :: failEv e) e
        else
          .stepOk [waitEv, "   ✓ Summary ready"]
            (ctxSet ctx "summary" r.summary)
            [("summary", jval r.summary), ("error", jval r.error)]
  else
    .skip ("   ⚠ Unknown tool '" ++ tool ++ "', skipping.")
where
  jval : PyStr → JVal
    | none => .null
    | some s => .str s

/-- Outcome of the whole body of the `for step in steps` loop for one step:
the check of `step['step']` (outside the `try` — a missing key raises),
the dispatch-and-invoke (`execTool`), and the `memory.add_memory` write
(also outside the `try` — a failing insert raises). -/
inductive StepOut where
  | crash (exn : String)
  | skipped (events : List String)
  | okStep (events : List String) (ctx : Ctx) (entry : AuditEntry)
  | failedStep (events : List String) (entry : AuditEntry)
  | auditCrash (exn : String) (events : List String)
  deriving Repr

/-- One iteration of the step loop of `run_pipeline` (lines 63–113). -/
def stepOut (cfg : Config) (message : String) (ctx : Ctx) (s : Step) : StepOut :=
  match s.step with
  | none => .crash (keyErr "step")
  | some n =>
    let tool := s.tool_to_use.getD ""
    let name := s.subtask_name.getD tool
    let hdr := stepHeader n name
    match execTool cfg ctx tool with
    | .skip warn => .skipped [hdr, warn]
    | .stepOk evs ctx' res =>
      let entry := mkEntry message tool res 200 cfg.now
      match cfg.auditApi entry with
      | .ok _ => .okStep (hdr :: evs) ctx' entry
      | .error e => .auditCrash e (hdr :: evs)
    | .stepFail evs err =>
      let entry := mkEntry message tool [("error", .str err)] 500 cfg.now
      match cfg.auditApi entry with
      | .ok _ => .failedStep (hdr :: evs) entry
      | .error e => .auditCrash e (hdr :: evs)

/-- How the step loop ends when no exception escapes: either every step was
processed (`finished`, with the final shared context), or a status-500 step
stopped the run after `⛔` and `END` were sent (`halted`). -/
inductive RunDone where
  | finished (ctx : Ctx) (events : List String) (audits : List AuditEntry)
  | halted (events : List String) (audits : List AuditEntry)
  deriving Repr

/-- The `for step in steps` loop of `run_pipeline`, threading the shared
context and accumulating sent events and written audit rows. -/
def runSteps (cfg : Config) (message : String) :
    List Step → Ctx → List String → List AuditEntry → Except Crash RunDone
  | [], ctx, ev, au => .ok (.finished ctx ev au)
  | s :: rest, ctx, ev, au =>
    match stepOut cfg message ctx s with
    | .crash e => .error ⟨e, ev, au⟩
    | .skipped evs => runSteps cfg message rest ctx (ev ++ evs) au
    | .okStep evs ctx' entry => runSteps cfg message rest ctx' (ev ++ evs) (au ++ [entry])
    | .failedStep evs entry =>
      .ok (.halted (ev ++ evs ++ ["⛔ Pipeline stopped due to error.", "END"]) (au ++ [entry]))
    | .auditCrash e evs => .error ⟨e, ev ++ evs, au⟩

/-- The final-summary text: `context.get("summary", "No summary produced.")`
rendered by the f-string (a stored `None` would render as `"None"`). -/
def summaryText (ctx : Ctx) : String :=
  match ctxGet ctx "summary" with
  | none => "No summary produced."
  | some v => pyShow v

/-- `run_pipeline` of `src/gateway/index.py` for one user message, as a
function of the external world `cfg`. `ok` collects every event sent over
the WebSocket, in order, and every audit row written; `error` is an
exception escaping `run_pipeline` to its caller. -/
def run_pipeline (cfg : Config) (message : String) : Except Crash Output :=
  match cfg.planResult with
  | .error e =>
    .ok ⟨["📋 Breaking task into subtasks...", "❌ Task planning failed: " ++ e, "END"], []⟩
  | .ok steps =>
    match runSteps cfg message steps (initCtx message) (planEvs steps.length) [] with
    | .error c => .error c
    | .ok (.halted evs audits) => .ok ⟨evs, audits⟩
    | .ok (.finished ctx evs audits) =>
      .ok ⟨evs ++ ["💾 Results saved to memory.",
                   "\n✅ Summary:\n" ++ summaryText ctx, "END"], audits⟩

/-- The events, final context and audit rows of a run prefix in which every
step is executed and succeeds (status 200 with a successful audit write):
`none` as soon as some step crashes, skips, or fails. Used to phrase
"the first `k-1` steps succeed" in the testable properties. -/
def okRun (cfg : Config) (message : String) :
    List Step → Ctx → Option (Ctx × List String × List AuditEntry)
  | [], ctx => some (ctx, [], [])
  | s :: rest, ctx =>
    match stepOut cfg message ctx s with
    | .okStep evs ctx' entry =>
      (okRun cfg message rest ctx').map fun out => (out.1, evs ++ out.2.1, entry :: out.2.2)
    | _ => none

/-! ### Tool registry (`src/tooling-detection/registry.py`) -/

/-- One value of the `_tools` dictionary: the registered callable and the
schema dictionary built from it (`name`, `description`, `parameters`); the
parameters schema is kept as an opaque blob. `α` is the callable's type. -/
structure RegEntry (α : Type) where
  func : α
  schemaName : String
  schemaDescription : String
  schemaParameters : String

/-- `ToolRegistry`: the `_tools` dictionary mapping a tool name to its entry
(a Python dict: insertion-ordered, keys unique). -/
structure ToolRegistry (α : Type) where
  tools : List (String × RegEntry α)

/-- The tool names currently registered (`self._tools` keys, in order). -/
def regKeys {α : Type} (r : ToolRegistry α) : List String := r.tools.map Prod.fst

/-- `tool_name = name or func.__name__`: Python `or` falls through on a
falsy (empty or `None`) explicit name. -/
def toolName (name : Option String) (funcName : String) : String :=
  match name with
  | some n => if n = "" then funcName else n
  | none => funcName

/-- The `ValueError` message raised for a duplicate registration. -/
def dupMsg (tn : String) : String :=
  "Tool '" ++ tn ++ "' is already registered. Use a unique name or remove the duplicate."

/-- The rendering of `list(self._tools.keys())` inside the `KeyError`
message of `get_function`. -/
def pyListRepr (keys : List String) : String :=
  "[" ++ String.intercalate ", " (keys.map fun k => "'" ++ k ++ "'") ++ "]"

/-- `ToolRegistry.register` (the decorator applied to one function): returns
the registry state after the call together with the raised `ValueError`, if
any. On success the entry is stored under `tool_name`; on a duplicate name
the registry is left as it was and the error is raised at registration time. -/
def ToolRegistry.register {α : Type} (r : ToolRegistry α)
    (description parameters : String) (name : Option String)
    (funcName : String) (func : α) : ToolRegistry α × Except String Unit :=
  let tn := toolName name funcName
  if (regKeys r).contains tn then
    (r, .error (dupMsg tn))
  else
    ({ tools := r.tools ++ [(tn, ⟨func, tn, description, parameters⟩)] }, .ok ())

/-- `ToolRegistry.get_function`: look the name up in `_tools`; a missing
name raises `KeyError`. The registry state after the call is returned
unchanged — the method body only reads `self._tools`. -/
def ToolRegistry.get_function {α : Type} (r : ToolRegistry α) (name : String) :
    Except String α × ToolRegistry α :=
  (match alistGet (r.tools.map fun kv => (kv.1, kv.2.func)) name with
   | some f => .ok f
   | none => .error ("No tool named '" ++ name ++ "' found in registry. " ++
       "Available tools: " ++ pyListRepr (regKeys r)),
   r)

/-! ### Audit log reads (`src/memory/index.py`) -/

/-- One row of the per-user table `memory{user_id}`, in the column order of
the `SELECT` in `get_memories`. -/
structure MemRow where
  id : Nat
  chat_id : Nat
  user_id : Nat
  prompt : String
  tool : String
  response : String
  response_code : Nat
  timestamp : Int
  deriving Repr, DecidableEq

/-- The persistence state: one logical table per user identity (the code
creates a table named `memory{user_id}` per user). -/
def MemDB := Nat → List MemRow

/-- `ORDER BY timestamp DESC`: row `a` may precede row `b` when
`a.timestamp ≥ b.timestamp`. -/
def tsGe (a b : MemRow) : Prop := b.timestamp ≤ a.timestamp

instance : DecidableRel tsGe := fun a b => inferInstanceAs (Decidable (b.timestamp ≤ a.timestamp))

instance : IsTotal MemRow tsGe := ⟨fun a b => le_total b.timestamp a.timestamp⟩

instance : IsTrans MemRow tsGe := ⟨fun _ _ _ h1 h2 => le_trans h2 h1⟩

/-- SQLite `LIMIT n`: at most `n` rows when `n ≥ 0`; a negative `n` means
no upper bound at all (SQLite's documented semantics for `LIMIT`). -/
def sqliteLimit {β : Type} (n : Int) (rows : List β) : List β :=
  if n < 0 then rows else rows.take n.toNat

/-- `MemoryModule.get_memories(user_id, limit)`: `SELECT ... FROM
memory{user_id} ORDER BY timestamp DESC LIMIT {limit}` — the rows of that
user's table, sorted by descending timestamp, truncated per SQLite `LIMIT`. -/
def get_memories (db : MemDB) (user_id : Nat) (limit : Int) : List MemRow :=
  sqliteLimit limit (List.insertionSort tsGe (db user_id))

/-! ### The TUI client's phase decoder (`src/manuclaw.py`) -/

/-- `ManuclawApp.PHASE_MAP`: the closed set of phase tags and their CSS
classes. -/
def PHASE_MAP : List (String × String) :=
  [("GATEWAY", "phase-gateway"), ("PLANNER", "phase-planner"),
   ("EXECUTOR", "phase-executor"), ("MEMORY", "phase-memory"),
   ("RESULT", "phase-result"), ("ERROR", "phase-error")]

/-- Split a character list at its first `':'`: the part before and after, or
`none` when there is no colon (`":" in line` fails). -/
def splitColon : List Char → Option (List Char × List Char)
  | [] => none
  | c :: t =>
    if c = ':' then some ([], t)
    else (splitColon t).map fun p => (c :: p.1, p.2)

/-- The per-line classification of `ManuclawApp.send_message` (lines
154–164) for a line that is not the terminal marker: the CSS phase class and
the text to render. Defaults are `phase-gateway` and the whole line; they
are replaced only when the line contains a colon and the part before the
first colon is a key of `PHASE_MAP`. -/
def classifyLine (line : String) : String × String :=
  match splitColon line.data with
  | none => ("phase-gateway", line)
  | some p =>
    match alistGet PHASE_MAP ⟨p.1⟩ with
    | some cls => (cls, ⟨p.2⟩)
    | none => ("phase-gateway", line)

/-! ### Concrete runs used to instantiate the properties -/

/-- A plan step invoking the link-detection tool, as the planner produces it. -/
def stepLinkDetect : Step :=
  { step := some 1, subtask_name := some "Detect YouTube link",
    tool_to_use := some "youtube_link_detection_tool" }

/-- A link-detection step whose JSON lacks the `step` key. -/
def stepNoIndex : Step :=
  { step := none, subtask_name := some "Detect YouTube link",
    tool_to_use := some "youtube_link_detection_tool" }

/-- A step naming a tool absent from the gateway's dispatch, without a
`step` key. -/
def stepUnknownNoIndex : Step :=
  { step := none, subtask_name := none, tool_to_use := some "email_tool" }

/-- A step naming a tool absent from the gateway's dispatch. -/
def stepUnknown : Step :=
  { step := some 2, subtask_name := none, tool_to_use := some "email_tool" }

/-- A concrete external world: offline network, no summarizer key,
audit writes succeed, clock frozen at 7. -/
def baseCfg : Config :=
  { planResult := .ok [], fetchApi := fun _ _ => .error "offline",
    hasKey := false, summApi := fun _ => .error "offline",
    auditApi := fun _ => .ok (), now := 7 }

/-- World whose plan is the single link-detection step. -/
def cfgLinkOnly : Config := { baseCfg with planResult := .ok [stepLinkDetect] }

/-- World whose plan's only step lacks the `step` key. -/
def cfgStepless : Config := { baseCfg with planResult := .ok [stepNoIndex] }

/-- World whose plan's only step names an unknown tool and lacks the
`step` key. -/
def cfgUnknownStepless : Config := { baseCfg with planResult := .ok [stepUnknownNoIndex] }

/-- World whose plan generation raised (e.g. the LLM returned non-JSON). -/
def cfgPlanFail : Config :=
  { baseCfg with planResult := .error "LLM did not return valid JSON." }

/-- The message of the concrete successful run. -/
def msgW : String := "v=abcdefghijk"

/-- Shared context after the successful link-detection step on `msgW`. -/
def ctxW : Ctx := [("raw_input", some msgW), ("video_id", some "abcdefghijk")]

/-- Events of the successful link-detection step on `msgW`. -/
def evsOkW : List String :=
  ["🔧 Step 1: Detect YouTube link", "   ✓ Video ID: abcdefghijk"]

/-- Audit entry of the successful link-detection step on `msgW`. -/
def entryOkW : AuditEntry :=
  mkEntry msgW "youtube_link_detection_tool"
    [("video_id", JVal.str "abcdefghijk"), ("error", JVal.null)] 200 7

/-- Events of the failing link-detection step on the message `"hello"`. -/
def evsFailW : List String :=
  ["🔧 Step 1: Detect YouTube link",
   "   ❌ Failed: No valid YouTube video ID found in input."]

/-- Audit entry of the failing link-detection step on `"hello"`. -/
def entryFailW : AuditEntry :=
  mkEntry "hello" "youtube_link_detection_tool"
    [("error", JVal.str "No valid YouTube video ID found in input.")] 500 7

/-- A registry already holding `send_email`, as after `tools/` import. -/
def regW : ToolRegistry Nat :=
  { tools := [("send_email", ⟨0, "send_email", "Send an email to a single recipient.", "schema"⟩)] }

/-- One stored audit row. -/
def rowC8 : MemRow :=
  { id := 1, chat_id := 1, user_id := 1, prompt := "p", tool := "tool",
    response := "resp", response_code := 200, timestamp := 10 }

/-- A second stored audit row, older than `rowC8`. -/
def rowC8b : MemRow :=
  { id := 2, chat_id := 1, user_id := 1, prompt := "q", tool := "tool",
    response := "resp", response_code := 200, timestamp := 4 }

/-- A persistence state with one user table holding two rows. -/
def dbC8 : MemDB := fun _ => [rowC8b, rowC8]

/-! ## Helper lemmas -/

/-- Updating one context key leaves every other key's lookup unchanged. -/
theorem ctxGet_ctxSet_ne (ctx : Ctx) (key k : String) (v : PyStr) (h : k ≠ key) :
    ctxGet (ctxSet ctx key v) k = ctxGet ctx k := by
  induction ctx with
  | nil => simp [ctxSet, ctxGet, alistGet, Ne.symm h]
  | cons hd tl ih =>
    obtain ⟨k', v'⟩ := hd
    by_cases hk : k' = key
    · subst hk
      simp only [ctxSet, if_pos rfl, ctxGet, alistGet]
      rw [if_neg (Ne.symm h), if_neg (Ne.symm h)]
    · simp only [ctxSet, if_neg hk, ctxGet, alistGet]
      by_cases hkk : k' = k
      · rw [if_pos hkk, if_pos hkk]
      · rw [if_neg hkk, if_neg hkk]
        exact ih

/-- A string at least 4 characters long is not the terminal marker. -/
theorem ne_end_of_four_le (s : String) (h : 4 ≤ s.length) : s ≠ "END" := by
  intro hs
  rw [hs] at h
  simp [String.length] at h

/-! ## C5 — plan-generation failure -/

/-- C5: whenever plan generation fails with exception text `e`, the run
emits the planning announcement, an error event describing the failure, and
the terminal marker, then returns with no step executed and no audit entry
written. -/
theorem C5_plan_failure (cfg : Config) (message e : String)
    (h : cfg.planResult = .error e) :
    run_pipeline cfg message =
      .ok ⟨["📋 Breaking task into subtasks...",
            "❌ Task planning failed: " ++ e, "END"], []⟩ := by
  unfold run_pipeline
  rw [h]

/-- C5 witness: the concrete world `cfgPlanFail`, whose planner returned
invalid JSON. -/
theorem C5_plan_failure_witness :
    cfgPlanFail.planResult = .error "LLM did not return valid JSON." ∧
    run_pipeline cfgPlanFail "hi" =
      .ok ⟨["📋 Breaking task into subtasks...",
            "❌ Task planning failed: LLM did not return valid JSON.", "END"], []⟩ :=
  ⟨rfl, C5_plan_failure cfgPlanFail "hi" "LLM did not return valid JSON." rfl⟩

/-! ## C6 — adapter results populate exactly one of output and error -/

/-- C6: for every input string, the link-detection result has exactly one
non-null field among `video_id` and `error`; for every input and every
behaviour of the transcript API, the fetch result has exactly one non-null
field among `transcript_text` and `error`. -/
theorem C6_adapter_exclusive :
    (∀ raw : String,
      ((youtube_link_detection_tool raw).video_id.isSome = true ∧
        (youtube_link_detection_tool raw).error = none) ∨
      ((youtube_link_detection_tool raw).video_id = none ∧
        (youtube_link_detection_tool raw).error.isSome = true)) ∧
    (∀ (α : Type) (fetchApi : α → List String → Except String (List String))
        (vid : α) (lang : String),
      ((youtube_transcript_fetch_tool fetchApi vid lang).transcript_text.isSome = true ∧
        (youtube_transcript_fetch_tool fetchApi vid lang).error = none) ∨
      ((youtube_transcript_fetch_tool fetchApi vid lang).transcript_text = none ∧
        (youtube_transcript_fetch_tool fetchApi vid lang).error.isSome = true)) := by
  constructor
  · intro raw
    cases h1 : searchPat ['v', '='] raw.data with
    | some v => simp [youtube_link_detection_tool, h1]
    | none =>
      cases h2 : searchPat "youtu.be/".data raw.data with
      | some v => simp [youtube_link_detection_tool, h1, h2]
      | none =>
        by_cases h3 : ((pyStrip raw).data.length = 11 && (pyStrip raw).data.all ytIdChar) = true
        · simp only [youtube_link_detection_tool, h1, h2]
          rw [if_pos h3]
          simp
        · simp only [youtube_link_detection_tool, h1, h2, if_neg h3]
          simp
  · intro α fetchApi vid lang
    cases h : fetchApi vid (dedupAux [] [lang, "en", "en-US", "a.en", "fr", "fr-FR", "a.fr"]) with
    | error e => simp [youtube_transcript_fetch_tool, h]
    | ok segs => simp [youtube_transcript_fetch_tool, h]

/-! ## C7 — registry registration and lookup -/

/-- C7: registering a duplicate identifier raises at registration time and
leaves the tool table unchanged; a successful registration appends exactly
that one identifier; `get_function` leaves the registry unchanged. -/
theorem C7_registry_contract {α : Type} (r : ToolRegistry α) (desc params : String)
    (name : Option String) (funcName : String) (func : α) (lookupName : String) :
    (((regKeys r).contains (toolName name funcName) = true →
        (r.register desc params name funcName func).1 = r ∧
        (r.register desc params name funcName func).2 =
          .error (dupMsg (toolName name funcName))) ∧
     ((regKeys r).contains (toolName name funcName) = false →
        (r.register desc params name funcName func).2 = .ok () ∧
        regKeys (r.register desc params name funcName func).1 =
          regKeys r ++ [toolName name funcName])) ∧
    (r.get_function lookupName).2 = r := by
  refine ⟨⟨fun h => ?_, fun h => ?_⟩, rfl⟩
  · unfold ToolRegistry.register
    rw [if_pos h]
    exact ⟨rfl, rfl⟩
  · unfold ToolRegistry.register
    rw [if_neg (by simpa using h)]
    exact ⟨rfl, by simp [regKeys]⟩

/-- C7 witness: on `regW` (holding `send_email`), re-registering
`send_email` is rejected and leaves the registry unchanged; registering
`other_tool` succeeds and adds exactly that name; lookup does not mutate. -/
theorem C7_registry_contract_witness :
    ((regKeys regW).contains (toolName none "send_email") = true ∧
      (regW.register "d" "p" none "send_email" 7).1 = regW ∧
      (regW.register "d" "p" none "send_email" 7).2 =
        .error (dupMsg (toolName none "send_email"))) ∧
    ((regKeys regW).contains (toolName none "other_tool") = false ∧
      (regW.register "d" "p" none "other_tool" 7).2 = .ok () ∧
      regKeys (regW.register "d" "p" none "other_tool" 7).1 =
        regKeys regW ++ [toolName none "other_tool"]) ∧
    (regW.get_function "send_email").2 = regW := by
  have hdup := (C7_registry_contract regW "d" "p" none "send_email" 7 "send_email").1.1 (by decide)
  have hnew := (C7_registry_contract regW "d" "p" none "other_tool" 7 "send_email").1.2 (by decide)
  have hget := (C7_registry_contract regW "d" "p" none "send_email" 7 "send_email").2
  exact ⟨⟨by decide, hdup.1, hdup.2⟩, ⟨by decide, hnew.1, hnew.2⟩, hget⟩

/-! ## C8 — audit-log reads

The claim quantifies over every limit, but `get_memories` interpolates the
limit into the SQL text unchecked, and SQLite treats a negative `LIMIT` as
"no limit": with a negative limit the call returns every row of the table,
which exceeds the limit whenever the table is non-empty. For non-negative
limits the claimed contract holds. -/

/-- C8 counterexample: with two stored rows and `limit = -1`, the read
returns both rows, i.e. more than `limit` entries. -/
theorem C8_read_contract_cex :
    get_memories dbC8 1 (-1) = [rowC8, rowC8b] ∧
    ¬(((get_memories dbC8 1 (-1)).length : Int) ≤ -1) := by
  constructor
  · decide
  · decide

/-- C8 (amended): for every user identity and every non-negative limit,
`get_memories` returns at most `limit` entries, each drawn from that user's
table, with timestamps in non-increasing order. -/
theorem C8_read_contract_amended (db : MemDB) (uid : Nat) (limit : Int)
    (h : 0 ≤ limit) :
    ((get_memories db uid limit).length : Int) ≤ limit ∧
    (∀ r ∈ get_memories db uid limit, r ∈ db uid) ∧
    List.Sorted tsGe (get_memories db uid limit) := by
  unfold get_memories sqliteLimit
  rw [if_neg (not_lt.mpr h)]
  refine ⟨?_, ?_, ?_⟩
  · have hlen := List.length_take_le limit.toNat (List.insertionSort tsGe (db uid))
    calc ((List.take limit.toNat (List.insertionSort tsGe (db uid))).length : Int)
        ≤ (limit.toNat : Int) := by exact_mod_cast hlen
      _ = limit := Int.toNat_of_nonneg h
  · intro r hr
    exact (List.perm_insertionSort tsGe (db uid)).subset (List.take_subset _ _ hr)
  · exact (List.sorted_insertionSort tsGe (db uid)).sublist
      (List.take_sublist limit.toNat (List.insertionSort tsGe (db uid)))

/-- C8 witness: the amended contract evaluated on the concrete table at
limit 1 — one row comes back, and it is the more recent one. -/
theorem C8_read_contract_witness :
    (0 : Int) ≤ 1 ∧ ((get_memories dbC8 1 1).length : Int) ≤ 1 :=
  ⟨by decide, (C8_read_contract_amended dbC8 1 1 (by decide)).1⟩

/-! ## C9 — the consumer's phase decoder -/

/-- A colon-free character list yields no split. -/
theorem splitColon_of_no_colon (l : List Char) (h : ':' ∉ l) : splitColon l = none := by
  induction l with
  | nil => rfl
  | cons c t ih =>
    have hc : ¬c = ':' := fun hc => h (hc ▸ List.mem_cons_self c t)
    simp only [splitColon, if_neg hc, ih (fun ht => h (List.mem_cons_of_mem c ht)),
      Option.map_none']

/-- Splitting at the first colon of `tag ++ ':' :: rest` when `tag` is
colon-free. -/
theorem splitColon_append (tag rest : List Char) (h : ':' ∉ tag) :
    splitColon (tag ++ ':' :: rest) = some (tag, rest) := by
  induction tag with
  | nil => simp [splitColon]
  | cons c t ih =>
    have hc : ¬c = ':' := fun hc => h (hc ▸ List.mem_cons_self c t)
    have ht : ':' ∉ t := fun hmem => h (List.mem_cons_of_mem c hmem)
    simp [splitColon, if_neg hc, ih ht]

/-- C9: a non-terminal line whose text before the first colon is a phase tag
is rendered in that phase with the tag and colon stripped; a line with an
unrecognized tag, or with no colon at all, is rendered whole as an untagged
gateway-phase message. -/
theorem C9_decoder (line : String) (hline : line ≠ "END") :
    (∀ tag rest cls, line = tag ++ ":" ++ rest → ':' ∉ tag.data →
      alistGet PHASE_MAP tag = some cls → classifyLine line = (cls, rest)) ∧
    (∀ tag rest, line = tag ++ ":" ++ rest → ':' ∉ tag.data →
      alistGet PHASE_MAP tag = none → classifyLine line = ("phase-gateway", line)) ∧
    (':' ∉ line.data → classifyLine line = ("phase-gateway", line)) := by
  have hdata : ∀ tag rest : String, (tag ++ ":" ++ rest).data = tag.data ++ ':' :: rest.data := by
    intro tag rest
    rw [String.data_append, String.data_append, List.append_assoc]
    rfl
  refine ⟨?_, ?_, ?_⟩
  · intro tag rest cls hsplit htag hmap
    subst hsplit
    unfold classifyLine
    rw [hdata tag rest, splitColon_append tag.data rest.data htag]
    simp only []
    rw [show String.mk tag.data = tag from rfl, hmap,
      show String.mk rest.data = rest from rfl]
  · intro tag rest hsplit htag hmap
    subst hsplit
    unfold classifyLine
    rw [hdata tag rest, splitColon_append tag.data rest.data htag]
    simp only []
    rw [show String.mk tag.data = tag from rfl, hmap]
  · intro h
    unfold classifyLine
    rw [splitColon_of_no_colon line.data h]

/-- C9 witness: the line `ERROR:boom` (not the terminal marker) is rendered
in the error phase with the tag stripped. -/
theorem C9_decoder_witness :
    ("ERROR:boom" : String) ≠ "END" ∧
    classifyLine "ERROR:boom" = ("phase-error", "boom") :=
  ⟨by decide,
   (C9_decoder "ERROR:boom" (by decide)).1 "ERROR" "boom" "phase-error"
     rfl (by decide) (by decide)⟩

/-! ## Orchestrator lemmas -/

/-- A successful step invocation only ever writes the keys `video_id`,
`transcript_text` and `summary` into the shared context. -/
theorem execTool_stepOk_keys (cfg : Config) (ctx : Ctx) (tool : String)
    (evs : List String) (ctx' : Ctx) (res : ResJson)
    (h : execTool cfg ctx tool = .stepOk evs ctx' res) (k : String)
    (h1 : k ≠ "video_id") (h2 : k ≠ "transcript_text") (h3 : k ≠ "summary") :
    ctxGet ctx' k = ctxGet ctx k := by
  simp only [execTool] at h
  repeat' split at h
  all_goals try exact ToolExec.noConfusion h
  all_goals injection h with hA hB hC
  all_goals subst hB
  · exact ctxGet_ctxSet_ne ctx "video_id" k _ h1
  · exact ctxGet_ctxSet_ne ctx "transcript_text" k _ h2
  · exact ctxGet_ctxSet_ne ctx "summary" k _ h3

/-- No event of a successful step invocation is the terminal marker. -/
theorem execTool_stepOk_events (cfg : Config) (ctx : Ctx) (tool : String)
    (evs : List String) (ctx' : Ctx) (res : ResJson)
    (h : execTool cfg ctx tool = .stepOk evs ctx' res) :
    ∀ x ∈ evs, x ≠ "END" := by
  simp only [execTool] at h
  repeat' split at h
  all_goals try exact ToolExec.noConfusion h
  all_goals injection h with hA hB hC
  all_goals subst hA
  · intro x hx
    simp only [List.mem_singleton] at hx
    subst hx
    apply ne_end_of_four_le
    rw [String.length_append]
    have hp : ("   ✓ Video ID: " : String).length = 15 := rfl
    omega
  · intro x hx
    simp only [List.mem_singleton] at hx
    subst hx
    apply ne_end_of_four_le
    rw [String.length_append, String.length_append]
    have hp : ("   ✓ Transcript fetched (" : String).length = 25 := rfl
    omega
  · intro x hx
    simp only [List.mem_cons, List.not_mem_nil, or_false] at hx
    rcases hx with hx | hx <;> subst hx <;> decide

/-- The step-announcement event is never the terminal marker. -/
theorem stepHeader_ne_end (n : Nat) (name : String) : stepHeader n name ≠ "END" := by
  apply ne_end_of_four_le
  unfold stepHeader
  rw [String.length_append, String.length_append, String.length_append]
  have hp : ("🔧 Step " : String).length = 7 := rfl
  omega

/-- The audit entry of a successful step carries status code 200. -/
theorem stepOut_okStep_code (cfg : Config) (message : String) (ctx : Ctx) (s : Step)
    (evs : List String) (ctx' : Ctx) (entry : AuditEntry)
    (h : stepOut cfg message ctx s = .okStep evs ctx' entry) :
    entry.response_code = 200 := by
  simp only [stepOut] at h
  repeat' split at h
  all_goals try exact StepOut.noConfusion h
  injection h with hA hB hC
  subst hC
  rfl

/-- The audit entry of a failing step carries status code 500. -/
theorem stepOut_failedStep_code (cfg : Config) (message : String) (ctx : Ctx) (s : Step)
    (evs : List String) (entry : AuditEntry)
    (h : stepOut cfg message ctx s = .failedStep evs entry) :
    entry.response_code = 500 := by
  simp only [stepOut] at h
  repeat' split at h
  all_goals try exact StepOut.noConfusion h
  injection h with hA hB
  subst hB
  rfl

/-- A successful step preserves the shared context on every key other than
the three it may write, and comes from a successful invocation. -/
theorem stepOut_okStep_keys (cfg : Config) (message : String) (ctx : Ctx) (s : Step)
    (evs : List String) (ctx' : Ctx) (entry : AuditEntry)
    (h : stepOut cfg message ctx s = .okStep evs ctx' entry) (k : String)
    (h1 : k ≠ "video_id") (h2 : k ≠ "transcript_text") (h3 : k ≠ "summary") :
    ctxGet ctx' k = ctxGet ctx k := by
  simp only [stepOut] at h
  split at h
  · exact StepOut.noConfusion h
  · split at h
    · exact StepOut.noConfusion h
    · rename_i hex
      split at h
      · injection h with hA hB hC
        subst hB
        exact execTool_stepOk_keys cfg ctx _ _ _ _ hex k h1 h2 h3
      · exact StepOut.noConfusion h
    · split at h
      · exact StepOut.noConfusion h
      · exact StepOut.noConfusion h

/-- No event of a successful step is the terminal marker. -/
theorem stepOut_okStep_events (cfg : Config) (message : String) (ctx : Ctx) (s : Step)
    (evs : List String) (ctx' : Ctx) (entry : AuditEntry)
    (h : stepOut cfg message ctx s = .okStep evs ctx' entry) :
    ∀ x ∈ evs, x ≠ "END" := by
  simp only [stepOut] at h
  split at h
  · exact StepOut.noConfusion h
  · split at h
    · exact StepOut.noConfusion h
    · rename_i hex
      split at h
      · injection h with hA hB hC
        subst hA
        intro x hx
        rcases List.mem_cons.mp hx with hx | hx
        · subst hx
          exact stepHeader_ne_end _ _
        · exact execTool_stepOk_events cfg ctx _ _ _ _ hex x hx
      · exact StepOut.noConfusion h
    · split at h
      · exact StepOut.noConfusion h
      · exact StepOut.noConfusion h


/-- An all-successful run prefix writes one audit entry per step. -/
theorem okRun_length (cfg : Config) (message : String) (steps : List Step) :
    ∀ ctx c e a, okRun cfg message steps ctx = some (c, e, a) →
      a.length = steps.length := by
  induction steps with
  | nil =>
    intro ctx c e a h
    simp only [okRun, Option.some.injEq] at h
    obtain ⟨rfl, rfl, rfl⟩ := h
    rfl
  | cons s rest ih =>
    intro ctx c e a h
    simp only [okRun] at h
    split at h
    · rename_i evs ctx' entry heq
      cases hrec : okRun cfg message rest ctx' with
      | none => rw [hrec] at h; exact Option.noConfusion h
      | some out =>
        obtain ⟨c', e', a'⟩ := out
        rw [hrec] at h
        simp only [Option.map_some', Option.some.injEq] at h
        obtain ⟨rfl, rfl, rfl⟩ := h
        rw [List.length_cons, List.length_cons, ih _ _ _ _ hrec]
    · exact Option.noConfusion h

/-- Every audit entry of an all-successful run prefix has status 200. -/
theorem okRun_codes (cfg : Config) (message : String) (steps : List Step) :
    ∀ ctx c e a, okRun cfg message steps ctx = some (c, e, a) →
      ∀ x ∈ a, x.response_code = 200 := by
  induction steps with
  | nil =>
    intro ctx c e a h
    simp only [okRun, Option.some.injEq] at h
    obtain ⟨rfl, rfl, rfl⟩ := h
    intro x hx
    exact absurd hx (List.not_mem_nil x)
  | cons s rest ih =>
    intro ctx c e a h
    simp only [okRun] at h
    split at h
    · rename_i evs ctx' entry heq
      cases hrec : okRun cfg message rest ctx' with
      | none => rw [hrec] at h; exact Option.noConfusion h
      | some out =>
        obtain ⟨c', e', a'⟩ := out
        rw [hrec] at h
        simp only [Option.map_some', Option.some.injEq] at h
        obtain ⟨rfl, rfl, rfl⟩ := h
        intro x hx
        rcases List.mem_cons.mp hx with hx | hx
        · subst hx
          exact stepOut_okStep_code cfg message ctx s evs ctx' x heq
        · exact ih _ _ _ _ hrec x hx
    · exact Option.noConfusion h

/-- No event of an all-successful run prefix is the terminal marker. -/
theorem okRun_events (cfg : Config) (message : String) (steps : List Step) :
    ∀ ctx c e a, okRun cfg message steps ctx = some (c, e, a) →
      ∀ x ∈ e, x ≠ "END" := by
  induction steps with
  | nil =>
    intro ctx c e a h
    simp only [okRun, Option.some.injEq] at h
    obtain ⟨rfl, rfl, rfl⟩ := h
    intro x hx
    exact absurd hx (List.not_mem_nil x)
  | cons s rest ih =>
    intro ctx c e a h
    simp only [okRun] at h
    split at h
    · rename_i evs ctx' entry heq
      cases hrec : okRun cfg message rest ctx' with
      | none => rw [hrec] at h; exact Option.noConfusion h
      | some out =>
        obtain ⟨c', e', a'⟩ := out
        rw [hrec] at h
        simp only [Option.map_some', Option.some.injEq] at h
        obtain ⟨rfl, rfl, rfl⟩ := h
        intro x hx
        rcases List.mem_append.mp hx with hx | hx
        · exact stepOut_okStep_events cfg message ctx s evs ctx' entry heq x hx
        · exact ih _ _ _ _ hrec x hx
    · exact Option.noConfusion h

/-- An all-successful run prefix keeps every shared-context key other than
the three tool-written ones unchanged. -/
theorem okRun_keys (cfg : Config) (message : String) (steps : List Step) :
    ∀ ctx c e a, okRun cfg message steps ctx = some (c, e, a) →
      ∀ k, k ≠ "video_id" → k ≠ "transcript_text" → k ≠ "summary" →
        ctxGet c k = ctxGet ctx k := by
  induction steps with
  | nil =>
    intro ctx c e a h
    simp only [okRun, Option.some.injEq] at h
    obtain ⟨rfl, rfl, rfl⟩ := h
    intro k _ _ _
    rfl
  | cons s rest ih =>
    intro ctx c e a h
    simp only [okRun] at h
    split at h
    · rename_i evs ctx' entry heq
      cases hrec : okRun cfg message rest ctx' with
      | none => rw [hrec] at h; exact Option.noConfusion h
      | some out =>
        obtain ⟨c', e', a'⟩ := out
        rw [hrec] at h
        simp only [Option.map_some', Option.some.injEq] at h
        obtain ⟨rfl, rfl, rfl⟩ := h
        intro k h1 h2 h3
        rw [ih _ _ _ _ hrec k h1 h2 h3]
        exact stepOut_okStep_keys cfg message ctx s evs ctx' entry heq k h1 h2 h3
    · exact Option.noConfusion h

/-- Running the loop over `pre ++ rest` when `pre` is all-successful equals
running it over `rest` from the prefix's final context, with the prefix's
events and audit entries already accumulated. -/
theorem runSteps_append (cfg : Config) (message : String) (pre : List Step) :
    ∀ rest ctx ev au c e a, okRun cfg message pre ctx = some (c, e, a) →
      runSteps cfg message (pre ++ rest) ctx ev au =
        runSteps cfg message rest c (ev ++ e) (au ++ a) := by
  induction pre with
  | nil =>
    intro rest ctx ev au c e a h
    simp only [okRun, Option.some.injEq] at h
    obtain ⟨rfl, rfl, rfl⟩ := h
    simp
  | cons s pre' ih =>
    intro rest ctx ev au c e a h
    simp only [okRun] at h
    split at h
    · rename_i evs ctx' entry heq
      cases hrec : okRun cfg message pre' ctx' with
      | none => rw [hrec] at h; exact Option.noConfusion h
      | some out =>
        obtain ⟨c', e', a'⟩ := out
        rw [hrec] at h
        simp only [Option.map_some', Option.some.injEq] at h
        obtain ⟨rfl, rfl, rfl⟩ := h
        have hstep : runSteps cfg message ((s :: pre') ++ rest) ctx ev au =
            runSteps cfg message (pre' ++ rest) ctx' (ev ++ evs) (au ++ [entry]) := by
          show (match stepOut cfg message ctx s with
            | .crash ex => Except.error ⟨ex, ev, au⟩
            | .skipped evs2 => runSteps cfg message (pre' ++ rest) ctx (ev ++ evs2) au
            | .okStep evs2 ctx2 entry2 =>
              runSteps cfg message (pre' ++ rest) ctx2 (ev ++ evs2) (au ++ [entry2])
            | .failedStep evs2 entry2 =>
              Except.ok (RunDone.halted
                (ev ++ evs2 ++ ["⛔ Pipeline stopped due to error.", "END"]) (au ++ [entry2]))
            | .auditCrash ex evs2 => Except.error ⟨ex, ev ++ evs2, au⟩) =
            runSteps cfg message (pre' ++ rest) ctx' (ev ++ evs) (au ++ [entry])
          rw [heq]
        rw [hstep, ih rest ctx' (ev ++ evs) (au ++ [entry]) _ _ _ hrec]
        simp [List.append_assoc]
    · exact Option.noConfusion h

/-- Unfolding of one iteration of the step loop. -/
theorem runSteps_cons (cfg : Config) (message : String) (s : Step) (rest : List Step)
    (ctx : Ctx) (ev : List String) (au : List AuditEntry) :
    runSteps cfg message (s :: rest) ctx ev au =
      match stepOut cfg message ctx s with
      | .crash e => .error ⟨e, ev, au⟩
      | .skipped evs => runSteps cfg message rest ctx (ev ++ evs) au
      | .okStep evs ctx' entry => runSteps cfg message rest ctx' (ev ++ evs) (au ++ [entry])
      | .failedStep evs entry =>
        .ok (.halted (ev ++ evs ++ ["⛔ Pipeline stopped due to error.", "END"]) (au ++ [entry]))
      | .auditCrash e evs => .error ⟨e, ev ++ evs, au⟩ := rfl

/-- Unfolding of `run_pipeline` once the plan is known to have succeeded. -/
theorem run_pipeline_ok (cfg : Config) (message : String) (steps : List Step)
    (h : cfg.planResult = .ok steps) :
    run_pipeline cfg message =
      match runSteps cfg message steps (initCtx message) (planEvs steps.length) [] with
      | .error c => .error c
      | .ok (.halted evs audits) => .ok ⟨evs, audits⟩
      | .ok (.finished ctx evs audits) =>
        .ok ⟨evs ++ ["💾 Results saved to memory.",
                     "\n✅ Summary:\n" ++ summaryText ctx, "END"], audits⟩ := by
  unfold run_pipeline
  rw [h]

/-- Neither planning-phase event is the terminal marker. -/
theorem planEvs_ne_end (n : Nat) : ∀ x ∈ planEvs n, x ≠ "END" := by
  intro x hx
  simp only [planEvs, List.mem_cons, List.not_mem_nil, or_false] at hx
  rcases hx with hx | hx
  · subst hx
    decide
  · subst hx
    apply ne_end_of_four_le
    rw [String.length_append, String.length_append]
    have hp : ("   Found " : String).length = 9 := rfl
    omega

/-- A list none of whose members is the terminal marker counts zero of it. -/
theorem count_end_zero (l : List String) (h : ∀ x ∈ l, x ≠ "END") :
    l.count "END" = 0 :=
  List.count_eq_zero.mpr fun hm => h _ hm rfl

/-! ## C10 — the `raw_input` context entry is write-once -/

/-- The step loop, when it finishes all steps, preserves the `raw_input`
lookup of the shared context. -/
theorem runSteps_raw (cfg : Config) (message : String) (steps : List Step) :
    ∀ ctx ev au c e a, runSteps cfg message steps ctx ev au = .ok (.finished c e a) →
      ctxGet c "raw_input" = ctxGet ctx "raw_input" := by
  induction steps with
  | nil =>
    intro ctx ev au c e a h
    simp only [runSteps, Except.ok.injEq, RunDone.finished.injEq] at h
    obtain ⟨rfl, rfl, rfl⟩ := h
    rfl
  | cons s rest ih =>
    intro ctx ev au c e a h
    rw [runSteps_cons] at h
    split at h
    · exact Except.noConfusion h
    · exact ih _ _ _ _ _ _ h
    · rename_i evs ctx' entry heq
      rw [ih _ _ _ _ _ _ h]
      exact stepOut_okStep_keys cfg message ctx s evs ctx' entry heq "raw_input"
        (by decide) (by decide) (by decide)
    · simp at h
    · exact Except.noConfusion h

/-- C10: the shared context is seeded with the inbound message under
`raw_input` before the first step; a successful step only ever writes the
keys `video_id`, `transcript_text` and `summary`, leaving every other
lookup — `raw_input` in particular — unchanged; hence a completed step loop
still maps `raw_input` to the original message. -/
theorem C10_raw_input_invariant (message : String) :
    ctxGet (initCtx message) "raw_input" = some (some message) ∧
    (∀ cfg ctx tool evs ctx' res, execTool cfg ctx tool = ToolExec.stepOk evs ctx' res →
      ∀ k, k ≠ "video_id" → k ≠ "transcript_text" → k ≠ "summary" →
        ctxGet ctx' k = ctxGet ctx k) ∧
    (∀ cfg steps ctx ev au c e a,
      runSteps cfg message steps ctx ev au = .ok (.finished c e a) →
      ctxGet ctx "raw_input" = some (some message) →
      ctxGet c "raw_input" = some (some message)) := by
  refine ⟨rfl, ?_, ?_⟩
  · intro cfg ctx tool evs ctx' res h k h1 h2 h3
    exact execTool_stepOk_keys cfg ctx tool evs ctx' res h k h1 h2 h3
  · intro cfg steps ctx ev au c e a h hraw
    rw [runSteps_raw cfg message steps ctx ev au c e a h]
    exact hraw

/-- C10 witness: after the concrete successful link-detection run, the final
shared context still maps `raw_input` to the original message. -/
theorem C10_raw_input_invariant_witness :
    ctxGet ctxW "raw_input" = some (some msgW) :=
  (C10_raw_input_invariant msgW).2.2 cfgLinkOnly [stepLinkDetect] (initCtx msgW)
    [] [] ctxW evsOkW [entryOkW] rfl rfl

/-! ## C4 — unknown or empty tool identifiers

As claimed, the skip policy is only reached for a step whose JSON carries
the `step` key: `step['step']` is evaluated *before* the tool dispatch, so a
step with an unknown tool but no `step` key crashes the run instead of
being skipped. The claim is therefore amended with that precondition. -/

/-- C4 counterexample: a step naming the unknown tool `email_tool` but
lacking the `step` key raises `KeyError('step')` out of the run — no warning
event is emitted and the run is halted by the step. -/
theorem C4_skip_unknown_cex :
    run_pipeline cfgUnknownStepless "hi" =
      .error ⟨keyErr "step", planEvs 1, []⟩ ∧
    "   ⚠ Unknown tool 'email_tool', skipping." ∉ planEvs 1 := by
  constructor
  · rfl
  · decide

/-- C4 (amended): for every step that carries the `step` key and whose tool
identifier (empty-string default included) is none of the three dispatched
tools, the loop emits the step header and a skip warning, writes no audit
entry, leaves the shared context untouched, and continues with the
remaining steps. -/
theorem C4_skip_unknown_amended (cfg : Config) (message : String) (s : Step)
    (rest : List Step) (ctx : Ctx) (ev : List String) (au : List AuditEntry) (n : Nat)
    (hn : s.step = some n)
    (h1 : s.tool_to_use.getD "" ≠ "youtube_link_detection_tool")
    (h2 : s.tool_to_use.getD "" ≠ "youtube_transcript_fetch_tool")
    (h3 : s.tool_to_use.getD "" ≠ "transcript_summarizer_tool") :
    runSteps cfg message (s :: rest) ctx ev au =
      runSteps cfg message rest ctx
        (ev ++ [stepHeader n (s.subtask_name.getD (s.tool_to_use.getD "")),
                "   ⚠ Unknown tool '" ++ s.tool_to_use.getD "" ++ "', skipping."]) au := by
  have hex : execTool cfg ctx (s.tool_to_use.getD "") =
      .skip ("   ⚠ Unknown tool '" ++ s.tool_to_use.getD "" ++ "', skipping.") := by
    simp only [execTool, if_neg h1, if_neg h2, if_neg h3]
  have hskip : stepOut cfg message ctx s =
      .skipped [stepHeader n (s.subtask_name.getD (s.tool_to_use.getD "")),
        "   ⚠ Unknown tool '" ++ s.tool_to_use.getD "" ++ "', skipping."] := by
    simp only [stepOut, hn, hex]
  rw [runSteps_cons, hskip]

/-- C4 witness: the concrete unknown-tool step (with a `step` key) is
skipped with a warning and the loop moves on with no audit entry. -/
theorem C4_skip_unknown_witness :
    stepUnknown.step = some 2 ∧
    runSteps baseCfg "m" [stepUnknown] (initCtx "m") [] [] =
      runSteps baseCfg "m" [] (initCtx "m")
        ([stepHeader 2 "email_tool", "   ⚠ Unknown tool 'email_tool', skipping."]) [] :=
  ⟨rfl, C4_skip_unknown_amended baseCfg "m" stepUnknown [] (initCtx "m") [] [] 2
    rfl (by decide) (by decide) (by decide)⟩

/-! ## C3 — no exception crosses the orchestrator's boundary

The claim fails on the code: `step['step']` (and the `memory.add_memory`
call) sit *outside* the per-step `try`, so a plan step without the `step`
key — or a failing audit append — raises out of `run_pipeline` with no
error event and no terminal marker. With those two escapes excluded, every
run does end with `END` as its last event and no exception. -/

/-- C3 counterexample: a plan whose only step lacks the `step` key makes
`run_pipeline` raise `KeyError('step')` to its caller — the claim's "never
propagates an exception" fails, with no error event and no terminal
marker emitted. -/
theorem C3_no_propagation_cex :
    run_pipeline cfgStepless "hello" =
      .error ⟨keyErr "step", planEvs 1, []⟩ := rfl

/-- A step with a `step` key, under an audit log whose appends succeed,
never ends in a crash outcome. -/
theorem stepOut_not_crash (cfg : Config) (message : String) (ctx : Ctx) (s : Step)
    (hs : s.step ≠ none) (haud : ∀ x, cfg.auditApi x = .ok ()) :
    (∃ evs, stepOut cfg message ctx s = .skipped evs) ∨
    (∃ evs ctx' entry, stepOut cfg message ctx s = .okStep evs ctx' entry) ∨
    (∃ evs entry, stepOut cfg message ctx s = .failedStep evs entry) := by
  obtain ⟨n, hn⟩ := Option.ne_none_iff_exists'.mp hs
  simp only [stepOut, hn]
  cases hex : execTool cfg ctx (s.tool_to_use.getD "") with
  | skip w => exact .inl ⟨_, rfl⟩
  | stepOk evs ctx' res =>
    simp only [haud]
    exact .inr (.inl ⟨_, _, _, rfl⟩)
  | stepFail evs err =>
    simp only [haud]
    exact .inr (.inr ⟨_, _, rfl⟩)

/-- The step loop, started on steps that all carry the `step` key and with
an audit log whose appends succeed, never raises: it either finishes all
steps or halts with `END` as its last event. -/
theorem runSteps_total (cfg : Config) (message : String)
    (haud : ∀ x, cfg.auditApi x = .ok ()) (steps : List Step) :
    ∀ ctx ev au, (∀ s ∈ steps, s.step ≠ none) →
      (∃ c e a, runSteps cfg message steps ctx ev au = .ok (.finished c e a)) ∨
      (∃ e a fr, runSteps cfg message steps ctx ev au = .ok (.halted e a) ∧
        e = fr ++ ["END"]) := by
  induction steps with
  | nil =>
    intro ctx ev au _
    exact .inl ⟨ctx, ev, au, rfl⟩
  | cons s rest ih =>
    intro ctx ev au hsteps
    have hs : s.step ≠ none := hsteps s (List.mem_cons_self s rest)
    have hrest : ∀ x ∈ rest, x.step ≠ none :=
      fun x hx => hsteps x (List.mem_cons_of_mem s hx)
    rcases stepOut_not_crash cfg message ctx s hs haud with
      ⟨evs, hso⟩ | ⟨evs, ctx', entry, hso⟩ | ⟨evs, entry, hso⟩
    · rw [runSteps_cons, hso]
      exact ih ctx (ev ++ evs) au hrest
    · rw [runSteps_cons, hso]
      exact ih ctx' (ev ++ evs) (au ++ [entry]) hrest
    · rw [runSteps_cons, hso]
      refine .inr ⟨_, _, ev ++ evs ++ ["⛔ Pipeline stopped due to error."], rfl, ?_⟩
      simp [List.append_assoc]

/-- C3 (amended): for every message, every plan whose steps all carry the
`step` key, and every behaviour of the tool adapters, provided audit-log
appends succeed, `run_pipeline` returns normally and its event stream ends
with the terminal marker; the unqualified claim fails exactly on the two
escapes the code leaves outside its `try` (a step missing the `step` key, a
failing audit append). -/
theorem C3_no_propagation_amended (cfg : Config) (message : String)
    (hsteps : ∀ steps, cfg.planResult = .ok steps → ∀ s ∈ steps, s.step ≠ none)
    (haud : ∀ x, cfg.auditApi x = .ok ()) :
    ∃ out, run_pipeline cfg message = .ok out ∧
      ∃ fr, out.events = fr ++ ["END"] := by
  cases hp : cfg.planResult with
  | error e =>
    refine ⟨⟨["📋 Breaking task into subtasks...",
              "❌ Task planning failed: " ++ e, "END"], []⟩, ?_, ?_⟩
    · unfold run_pipeline
      rw [hp]
    · exact ⟨["📋 Breaking task into subtasks...", "❌ Task planning failed: " ++ e], rfl⟩
  | ok steps =>
    rcases runSteps_total cfg message haud steps (initCtx message)
        (planEvs steps.length) [] (hsteps steps hp) with
      ⟨c, e, a, hr⟩ | ⟨e, a, fr, hr, hfr⟩
    · refine ⟨⟨e ++ ["💾 Results saved to memory.",
                     "\n✅ Summary:\n" ++ summaryText c, "END"], a⟩, ?_, ?_⟩
      · rw [run_pipeline_ok cfg message steps hp, hr]
      · refine ⟨e ++ ["💾 Results saved to memory.", "\n✅ Summary:\n" ++ summaryText c], ?_⟩
        simp [List.append_assoc]
    · refine ⟨⟨e, a⟩, ?_, fr, hfr⟩
      rw [run_pipeline_ok cfg message steps hp, hr]

/-- C3 witness: the amended no-propagation property holds on the concrete
failing link-detection run (all steps carry a `step` key, audit writes
succeed): the run returns normally. -/
theorem C3_no_propagation_witness :
    (run_pipeline cfgLinkOnly "hello").isOk = true := by
  obtain ⟨out, hout, -⟩ := C3_no_propagation_amended cfgLinkOnly "hello"
    (by intro steps h s hs
        cases h
        simp only [List.mem_cons, List.not_mem_nil, or_false] at hs
        subst hs
        decide)
    (fun x => rfl)
  rw [hout]
  rfl

/-! ## C1 — fail-fast on the first failing step -/

/-- C1: when the plan is `pre ++ sk :: post`, every step of `pre` succeeds
(ending in context `ctxk` with events `evk` and audit rows `auk`) and step
`sk` fails, the run writes exactly `|pre| + 1` audit entries — the first
`|pre|` with status 200 and the last with status 500 — emits the stop event
immediately followed by the terminal marker, and returns; the loop never
touches the steps after `sk` (running `sk :: post` from `ctxk` equals
running `[sk]` alone). -/
theorem C1_fail_fast (cfg : Config) (message : String) (pre post : List Step)
    (sk : Step) (ctxk : Ctx) (evk : List String) (auk : List AuditEntry)
    (evs : List String) (entry : AuditEntry)
    (hplan : cfg.planResult = .ok (pre ++ sk :: post))
    (hpre : okRun cfg message pre (initCtx message) = some (ctxk, evk, auk))
    (hfail : stepOut cfg message ctxk sk = .failedStep evs entry) :
    run_pipeline cfg message =
      .ok ⟨planEvs (pre ++ sk :: post).length ++ evk ++ evs ++
             ["⛔ Pipeline stopped due to error.", "END"],
           auk ++ [entry]⟩ ∧
    (auk ++ [entry]).length = pre.length + 1 ∧
    (∀ x ∈ auk, x.response_code = 200) ∧
    entry.response_code = 500 ∧
    (∀ ev au, runSteps cfg message (sk :: post) ctxk ev au =
      runSteps cfg message [sk] ctxk ev au) := by
  have hstop : ∀ ev au rest, runSteps cfg message (sk :: rest) ctxk ev au =
      .ok (.halted (ev ++ evs ++ ["⛔ Pipeline stopped due to error.", "END"])
        (au ++ [entry])) := by
    intro ev au rest
    rw [runSteps_cons, hfail]
  refine ⟨?_, ?_, okRun_codes cfg message pre _ _ _ _ hpre,
    stepOut_failedStep_code cfg message ctxk sk evs entry hfail, ?_⟩
  · rw [run_pipeline_ok cfg message (pre ++ sk :: post) hplan,
      runSteps_append cfg message pre (sk :: post) (initCtx message)
        (planEvs (pre ++ sk :: post).length) [] ctxk evk auk hpre,
      hstop]
    simp [List.append_assoc]
  · rw [List.length_append, okRun_length cfg message pre _ _ _ _ hpre]
    rfl
  · intro ev au
    rw [hstop ev au post, hstop ev au []]

/-- C1 witness: the concrete world whose one-step plan fails at step 1 on
the message `"hello"`: one audit entry at status 500, stop event and
terminal marker, and the exact claimed output. -/
theorem C1_fail_fast_witness :
    cfgLinkOnly.planResult = .ok ([] ++ stepLinkDetect :: []) ∧
    okRun cfgLinkOnly "hello" [] (initCtx "hello") =
      some (initCtx "hello", [], []) ∧
    stepOut cfgLinkOnly "hello" (initCtx "hello") stepLinkDetect =
      .failedStep evsFailW entryFailW ∧
    run_pipeline cfgLinkOnly "hello" =
      .ok ⟨planEvs 1 ++ evsFailW ++ ["⛔ Pipeline stopped due to error.", "END"],
           [entryFailW]⟩ ∧
    entryFailW.response_code = 500 :=
  have h := C1_fail_fast cfgLinkOnly "hello" [] [] stepLinkDetect
    (initCtx "hello") [] [] evsFailW entryFailW rfl rfl rfl
  ⟨rfl, rfl, rfl, by simpa using h.1, h.2.2.2.1⟩

/-! ## C2 — all-success runs -/

/-- C2: when the plan succeeds with steps `steps` and every step executes
successfully (no failure, no skip), the run writes exactly `|steps|` audit
entries, all with status 200, then emits the memory event, a final result
event carrying the last produced summary (or the `No summary produced.`
placeholder when the context holds none — in particular for zero steps),
and exactly one terminal marker, which is the last event. -/
theorem C2_all_success (cfg : Config) (message : String) (steps : List Step)
    (ctx : Ctx) (evs : List String) (audits : List AuditEntry)
    (hplan : cfg.planResult = .ok steps)
    (hok : okRun cfg message steps (initCtx message) = some (ctx, evs, audits)) :
    audits.length = steps.length ∧
    (∀ x ∈ audits, x.response_code = 200) ∧
    run_pipeline cfg message =
      .ok ⟨planEvs steps.length ++ evs ++
            ["💾 Results saved to memory.", "\n✅ Summary:\n" ++ summaryText ctx, "END"],
           audits⟩ ∧
    (planEvs steps.length ++ evs ++
       ["💾 Results saved to memory.", "\n✅ Summary:\n" ++ summaryText ctx, "END"]).count
        "END" = 1 := by
  have hruns : runSteps cfg message steps (initCtx message) (planEvs steps.length) [] =
      .ok (.finished ctx (planEvs steps.length ++ evs) ([] ++ audits)) := by
    have h := runSteps_append cfg message steps [] (initCtx message)
      (planEvs steps.length) [] ctx evs audits hok
    rw [List.append_nil] at h
    exact h
  refine ⟨okRun_length cfg message steps _ _ _ _ hok,
    okRun_codes cfg message steps _ _ _ _ hok, ?_, ?_⟩
  · rw [run_pipeline_ok cfg message steps hplan, hruns]
    simp [List.append_assoc]
  · have hmem : ("💾 Results saved to memory." : String) ≠ "END" := by decide
    have hsum : ("\n✅ Summary:\n" ++ summaryText ctx) ≠ "END" := by
      apply ne_end_of_four_le
      rw [String.length_append]
      have hp : ("\n✅ Summary:\n" : String).length = 12 := rfl
      omega
    rw [List.count_append, List.count_append,
      count_end_zero _ (planEvs_ne_end steps.length),
      count_end_zero _ (okRun_events cfg message steps _ _ _ _ hok)]
    simp [List.count_cons, hmem, hsum]

/-- C2 witness: the concrete one-step run on `"v=abcdefghijk"`: one audit
entry at status 200 and the exact claimed event stream, ending in the
single terminal marker after the result event. -/
theorem C2_all_success_witness :
    cfgLinkOnly.planResult = .ok [stepLinkDetect] ∧
    okRun cfgLinkOnly msgW [stepLinkDetect] (initCtx msgW) =
      some (ctxW, evsOkW, [entryOkW]) ∧
    run_pipeline cfgLinkOnly msgW =
      .ok ⟨planEvs 1 ++ evsOkW ++
            ["💾 Results saved to memory.", "\n✅ Summary:\n" ++ summaryText ctxW, "END"],
           [entryOkW]⟩ ∧
    [entryOkW].length = 1 :=
  have h := C2_all_success cfgLinkOnly msgW [stepLinkDetect] ctxW evsOkW [entryOkW]
    rfl rfl
  ⟨rfl, rfl, h.2.2.1, h.1⟩
